import Mathlib

/-!
vocab-crawler: a shallow embedding of `main.go` and `csv.go`.

Go strings are modelled as Lean strings, i.e. as valid UTF-8 text.  On such
text the byte test `text[len(text)-1] == ':'` holds exactly when the last
character is a colon (a UTF-8 continuation byte is never `0x3A`), and the
slice `text[:len(text)-1]` then drops exactly that last character.

A Go runtime panic is modelled by `none` in an `Option` result.

The page-visit collaborator (colly) is not part of the repository.  A visit
is modelled by the list of selector matches it reports to the registered
callbacks, in the order the callbacks are run; every theorem quantifies over
all such lists.
-/

namespace VocabCrawler

/-! ## Go library functions used by the program -/

/-- Go `unicode.IsSpace`: the Latin-1 spaces and the code points with the
Unicode White_Space property. -/
def isSpace (c : Char) : Bool :=
  let n := c.toNat
  n == 0x09 || n == 0x0A || n == 0x0B || n == 0x0C || n == 0x0D || n == 0x20
    || n == 0x85 || n == 0xA0 || n == 0x1680 || (0x2000 ≤ n && n ≤ 0x200A)
    || n == 0x2028 || n == 0x2029 || n == 0x202F || n == 0x205F || n == 0x3000

/-- Go `strings.TrimSpace` on the characters of a string. -/
def trimSpaceChars (cs : List Char) : List Char :=
  ((cs.dropWhile isSpace).reverse.dropWhile isSpace).reverse

/-- Go `strings.TrimSpace`. -/
def TrimSpace (s : String) : String :=
  ⟨trimSpaceChars s.data⟩

/-- Go `string(byte(n))`: the integer is truncated to a byte and the byte is
converted to the string holding that code point. -/
def stringOfByte (n : Nat) : String :=
  String.singleton (Char.ofNat (n % 256))

/-! ## `main.go`: seeds -/

/-- The loop `for i := lo; i <= 26; i++ { seeds[i] = string(byte('a' + i - 1)) }`
of `getSeed`, with `fuel` iterations left and `i` the loop variable. -/
def getSeedLoop : Nat → Nat → List String → List String
  | 0, _, seeds => seeds
  | fuel + 1, i, seeds =>
    if i ≤ 26 then getSeedLoop fuel (i + 1) (seeds.set i (stringOfByte (97 + i - 1)))
    else seeds

/-- Go `getSeed`. -/
def getSeed : List String :=
  let seeds := List.replicate 27 ""
  let seeds := seeds.set 0 "0-9"
  getSeedLoop 27 1 seeds

/-! ## `main.go`: levels -/

/-- Go `type Level int`. -/
abbrev Level := Int

def A1 : Level := 0
def A2 : Level := 1
def B1 : Level := 2
def B2 : Level := 3
def C1 : Level := 4
def C2 : Level := 5

def defaultLevel : Level := B2

/-- The slice `levels` of `convertStringToLevel`. -/
def levels : List String := ["A1", "A2", "B1", "B2", "C1", "C2"]

/-- The loop `for i, level := range levels` of `convertStringToLevel`, from
index `i` on; `none` when the loop ends without returning. -/
def convertStringToLevelLoop (l : String) : Nat → List String → Option Level
  | _, [] => none
  | i, level :: rest =>
    if l = level then some (Int.ofNat i) else convertStringToLevelLoop l (i + 1) rest

/-- Go `convertStringToLevel`. -/
def convertStringToLevel (l : String) : Level :=
  match convertStringToLevelLoop l 0 levels with
  | some lv => lv
  | none => -1

/-! ## `main.go`: listing pages -/

/-- Go `type URL string`. -/
abbrev URL := String

/-- The variables of `CrawlVocabURL` its selector callback writes: the local
`link`, and the values sent on the unbuffered channel `vocabUrls`, oldest
first (the consumer receives them in the order they are sent). -/
structure ListingState where
  link : String
  vocabUrls : List URL
  deriving DecidableEq, Repr

/-- The `OnHTML(wordUrlSelector, ...)` callback of `CrawlVocabURL`, run on one
matching element whose `href` attribute is `href`. -/
def crawlVocabURLCallback (st : ListingState) (href : String) : ListingState :=
  let link := href
  if link ≠ "" then
    { link := link, vocabUrls := st.vocabUrls ++ ["https://dictionary.cambridge.org" ++ link] }
  else
    { st with link := link }

/-- Go `CrawlVocabURL`: the URLs sent on the returned channel before it is
closed, for a visit whose matching elements have the attributes `hrefs`, in
document order. -/
def CrawlVocabURL (hrefs : List String) : List URL :=
  (hrefs.foldl crawlVocabURLCallback { link := "", vocabUrls := [] }).vocabUrls

/-! ## `main.go`: detail pages -/

/-- Go `type Vocab struct`. -/
structure Vocab where
  Word : String
  Definition : String
  Level : VocabCrawler.Level
  ExampleUsage : String
  deriving DecidableEq, Repr

/-- Go `func (v Vocab) String() string`. -/
def Vocab.String (v : Vocab) : String :=
  "Word: " ++ v.Word ++ ", Definition: " ++ v.Definition ++ ", ExampleUsage: " ++ v.ExampleUsage

/-- A Go `error` made by `errors.New`, as the message `Error()` returns. -/
structure GoError where
  message : String
  deriving DecidableEq, Repr

def ErrWordNotFound : GoError := ⟨"failed to find word"⟩
def ErrDefinitionNotFound : GoError := ⟨"failed to find definition"⟩

/-- Go `type CrawlVocabResponse struct`; `none` is the nil pointer, the nil
error. -/
structure CrawlVocabResponse where
  vocab : Option Vocab
  err : Option GoError
  deriving DecidableEq, Repr

/-- The verb `%s` of `fmt.Sprintf` on a `*Vocab`: the `String` method of the
pointed value, and `<nil>` for the nil pointer. -/
def fmtVocabPtr : Option Vocab → String
  | some v => v.String
  | none => "<nil>"

/-- Go `func (resp CrawlVocabResponse) String() string`. -/
def CrawlVocabResponse.String (resp : CrawlVocabResponse) : String :=
  match resp.err with
  | some e => "Faild when crawl, error: " ++ e.message
  | none => "Result of crawl, vocab: " ++ fmtVocabPtr resp.vocab

/-- One selector match reported during the visit of a detail page: which of
the four selectors matched, the element text, and for the level selector the
element index `e.Index`. -/
inductive Match where
  | word (text : String)
  | definition (text : String)
  | level (index : Nat) (text : String)
  | exampleUsage (text : String)
  deriving DecidableEq, Repr

/-- The variables of `CrawlVocab` captured by its callbacks. -/
structure CrawlState where
  vocab : Vocab
  hasFoundWord : Bool
  firstDefinitionFound : Bool
  deriving DecidableEq, Repr

/-- The state of `CrawlVocab` before the visit. -/
def initCrawlState : CrawlState :=
  { vocab := { Word := "", Definition := "", Level := defaultLevel, ExampleUsage := "" },
    hasFoundWord := false, firstDefinitionFound := false }

/-- The callback on `wordSelector`. -/
def wordCallback (st : CrawlState) (text : String) : CrawlState :=
  { st with vocab := { st.vocab with Word := text }, hasFoundWord := true }

/-- The Go expression `text[len(text)-1] == ':'`: `none` is the index out of
range panic, raised when `len(text)` is 0. -/
def lastIsColon (text : String) : Option Bool :=
  match text.data.getLast? with
  | none => none
  | some c => some (c == ':')

/-- The Go slice `text[:len(text)-1]`, used when the last byte is a colon. -/
def dropLastByte (text : String) : String :=
  ⟨text.data.dropLast⟩

/-- The callback on `definitionSelector`; `none` is a runtime panic. -/
def definitionCallback (st : CrawlState) (eText : String) : Option CrawlState :=
  if !st.firstDefinitionFound then
    let st := { st with firstDefinitionFound := true }
    let text := TrimSpace eText
    match lastIsColon text with
    | none => none
    | some true => some { st with vocab := { st.vocab with Definition := dropLastByte text } }
    | some false => some { st with vocab := { st.vocab with Definition := text } }
  else
    some st

/-- The callback on `levelSelector`. -/
def levelCallback (st : CrawlState) (index : Nat) (text : String) : CrawlState :=
  if index == 0 then
    { st with vocab := { st.vocab with Level := convertStringToLevel (TrimSpace text) } }
  else
    st

/-- The callback on `exampleSelector`. -/
def exampleCallback (st : CrawlState) (text : String) : CrawlState :=
  { st with vocab := { st.vocab with ExampleUsage := text } }

/-- The callback registered for the selector of a match, run on it. -/
def runCallback (st : CrawlState) : Match → Option CrawlState
  | .word text => some (wordCallback st text)
  | .definition text => definitionCallback st text
  | .level index text => some (levelCallback st index text)
  | .exampleUsage text => some (exampleCallback st text)

/-- The callbacks run by `c.Visit` on the matches of a page, in order; a
panic in a callback ends the run. -/
def Visit : CrawlState → List Match → Option CrawlState
  | st, [] => some st
  | st, m :: rest =>
    match runCallback st m with
    | none => none
    | some st1 => Visit st1 rest

/-- What one call of `CrawlVocab` leaves behind: the error records it logged
and the values it sent on `ch`, oldest first. -/
structure CrawlVocabRun where
  logged : List String
  sent : List CrawlVocabResponse
  deriving DecidableEq, Repr

/-- Go `CrawlVocab` on a page whose visit reports `page` and returns
`visitErr`; `none` is a runtime panic, which ends the process before
anything is sent. -/
def CrawlVocab (page : List Match) (visitErr : Option GoError) : Option CrawlVocabRun :=
  match Visit initCrawlState page with
  | none => none
  | some st =>
    let logged := match visitErr with
      | some e => [e.message]
      | none => []
    if !st.hasFoundWord then
      some { logged := logged, sent := [{ vocab := none, err := some ErrWordNotFound }] }
    else if !st.firstDefinitionFound then
      some { logged := logged, sent := [{ vocab := none, err := some ErrDefinitionNotFound }] }
    else
      some { logged := logged, sent := [{ vocab := some st.vocab, err := none }] }

/-! ## `csv.go` -/

/-- Go `convertIndexToFieldPostion`. -/
def convertIndexToFieldPostion (index : Nat) : String :=
  let col := stringOfByte (65 + index)
  col ++ "1"

/-- The loop of `setField` from index `i` on: the calls
`f.SetCellValue("Sheet1", pos, field)` it makes, as pairs `(pos, field)`. -/
def setFieldLoop : Nat → List String → List (String × String)
  | _, [] => []
  | i, field :: rest => (convertIndexToFieldPostion i, field) :: setFieldLoop (i + 1) rest

/-- Go `setField`. -/
def setField (fields : List String) : List (String × String) :=
  setFieldLoop 0 fields

/-- Go `CreateSheet`: the cell writes made and the name of the file saved. -/
def CreateSheet (name : String) (fields : List String) : List (String × String) × String :=
  (setField fields, name ++ ".xlsx")

/-! ## Definitions that follow the words of the specification -/

/-- The name of the spreadsheet column with zero-based number `n`, in the
usual naming A, B, ..., Z, AA, AB, ...; `fuel` bounds the number of letters. -/
def specColumnNameAux : Nat → Nat → List Char
  | 0, _ => []
  | fuel + 1, n =>
    if n < 26 then [Char.ofNat (65 + n)]
    else specColumnNameAux fuel (n / 26 - 1) ++ [Char.ofNat (65 + n % 26)]

/-- The name of the spreadsheet column with zero-based number `n`. -/
def specColumnName (n : Nat) : String :=
  ⟨specColumnNameAux (n + 1) n⟩

/-- The text the specification gives for a trimmed definition: one trailing
colon removed if present, unchanged otherwise. -/
def specStripColon (text : String) : String :=
  if text.data.getLast? = some ':' then ⟨text.data.dropLast⟩ else text

/-- The URLs the specification has a listing page emit: the site origin
followed by the link, for the links that are not empty, in document order. -/
def resolvedLinks (hrefs : List String) : List URL :=
  (hrefs.filter (fun href => href ≠ "")).map (fun href => "https://dictionary.cambridge.org" ++ href)

/-- The text of the last word-selector match of a page, if any. -/
def lastWordText : List Match → Option String
  | [] => none
  | .word text :: rest =>
    match lastWordText rest with
    | some later => some later
    | none => some text
  | _ :: rest => lastWordText rest

/-- The text of the first definition-selector match of a page, if any. -/
def firstDefinitionText : List Match → Option String
  | [] => none
  | .definition text :: _ => some text
  | _ :: rest => firstDefinitionText rest

/-! ## Seeds -/

/-- C8: `getSeed` returns exactly 27 keys, the key at index 0 is "0-9", the
key at index `i` for `1 <= i <= 26` is the one-character string of the
`i`-th lowercase letter, so the result is the fixed list "0-9", "a", ..., "z",
and no key occurs twice. -/
theorem getSeed_fixed_order :
    getSeed.length = 27
    ∧ getSeed[0]? = some "0-9"
    ∧ (∀ i : Fin 26, getSeed[i.val + 1]? = some (String.singleton (Char.ofNat ('a'.toNat + i.val))))
    ∧ getSeed = ["0-9", "a", "b", "c", "d", "e", "f", "g", "h", "i", "j", "k", "l", "m",
        "n", "o", "p", "q", "r", "s", "t", "u", "v", "w", "x", "y", "z"]
    ∧ getSeed.Nodup := by
  refine ⟨by decide, by decide, by decide, by decide, by decide⟩

/-! ## Levels -/

/-- C5: `convertStringToLevel` returns the level whose label is exactly the
argument when the argument is one of the six labels, and the sentinel
`Level(-1)` otherwise; the sentinel differs from each of the six levels, so a
string that is not a label is never mapped to a valid level. -/
theorem convertStringToLevel_spec (s : String) :
    (convertStringToLevel s =
      if s = "A1" then A1 else if s = "A2" then A2 else if s = "B1" then B1
      else if s = "B2" then B2 else if s = "C1" then C1 else if s = "C2" then C2
      else (-1 : Level))
    ∧ (s ∈ levels ↔ convertStringToLevel s ∈ [A1, A2, B1, B2, C1, C2])
    ∧ (s ∉ levels ↔ convertStringToLevel s = (-1 : Level))
    ∧ (-1 : Level) ∉ [A1, A2, B1, B2, C1, C2]
    ∧ convertStringToLevel "B1" = B1 := by
  have key : convertStringToLevel s =
      if s = "A1" then A1 else if s = "A2" then A2 else if s = "B1" then B1
      else if s = "B2" then B2 else if s = "C1" then C1 else if s = "C2" then C2
      else (-1 : Level) := by
    simp only [convertStringToLevel, levels, convertStringToLevelLoop]
    split_ifs <;> rfl
  refine ⟨key, ?_, ?_, by decide, by decide⟩
  · rw [key]
    simp only [levels, List.mem_cons, List.mem_singleton, List.not_mem_nil, or_false]
    split_ifs <;> simp_all [A1, A2, B1, B2, C1, C2]
  · rw [key]
    simp only [levels, List.mem_cons, List.mem_singleton, List.not_mem_nil, or_false]
    split_ifs <;> simp_all [A1, A2, B1, B2, C1, C2]

/-! ## Listing pages -/

theorem crawlVocabURL_foldl (hrefs : List String) (st : ListingState) :
    (hrefs.foldl crawlVocabURLCallback st).vocabUrls = st.vocabUrls ++ resolvedLinks hrefs := by
  induction hrefs generalizing st with
  | nil => simp [resolvedLinks]
  | cons href rest ih =>
    rw [List.foldl_cons, ih]
    by_cases h : href = ""
    · simp [crawlVocabURLCallback, resolvedLinks, h]
    · simp [crawlVocabURLCallback, resolvedLinks, h]

/-- C4: for every sequence of `href` values of the elements matching the
word-link selector, `CrawlVocabURL` emits, in document order, exactly the
site origin followed by the `href` for each element whose `href` is
non-empty, and nothing for an element whose `href` is empty; a page with two
matching links of which one has an empty `href` emits exactly one URL. -/
theorem CrawlVocabURL_emits (hrefs : List String) :
    CrawlVocabURL hrefs =
      (hrefs.filter (fun href => href ≠ "")).map
        (fun href => "https://dictionary.cambridge.org" ++ href)
    ∧ (CrawlVocabURL hrefs).length = (hrefs.filter (fun href => href ≠ "")).length
    ∧ CrawlVocabURL ["/dictionary/english/run", ""]
        = ["https://dictionary.cambridge.org/dictionary/english/run"]
    ∧ CrawlVocabURL ["", "/dictionary/english/run"]
        = ["https://dictionary.cambridge.org/dictionary/english/run"] := by
  have key : CrawlVocabURL hrefs = resolvedLinks hrefs := by
    simp [CrawlVocabURL, crawlVocabURL_foldl]
  refine ⟨key, ?_, by decide, by decide⟩
  rw [key]
  simp [resolvedLinks]

/-! ## Spreadsheet export -/

theorem setFieldLoop_getElem? (fields : List String) (k i : Nat) :
    (setFieldLoop k fields)[i]? =
      (fields[i]?).map (fun field => (convertIndexToFieldPostion (k + i), field)) := by
  induction fields generalizing k i with
  | nil => simp [setFieldLoop]
  | cons field rest ih =>
    cases i with
    | zero => simp [setFieldLoop]
    | succ n =>
      simp only [setFieldLoop, List.getElem?_cons_succ]
      rw [ih]
      have h : k + 1 + n = k + (n + 1) := by omega
      rw [h]

theorem convertIndexToFieldPostion_lt_26 :
    ∀ i, i < 26 → convertIndexToFieldPostion i = specColumnName i ++ "1" := by
  decide

theorem convertIndexToFieldPostion_distinct_lt_26 :
    ∀ i, i < 26 → ∀ j, j < 26 → j ≠ i →
      convertIndexToFieldPostion j ≠ convertIndexToFieldPostion i := by
  decide

/-- C9, as the code has it: for every list of fields and every index `i` into
it below 26, `setField` writes field `i` to the position
`convertIndexToFieldPostion i`, which is the name of the `(i+1)`-th
spreadsheet column (A, ..., Z) followed by "1", and the positions of two
different indices below 26 differ. -/
theorem setField_first_26_columns (fields : List String) (i : Nat)
    (hi : i < fields.length) (h26 : i < 26) :
    (setField fields)[i]? = some (specColumnName i ++ "1", fields[i])
    ∧ convertIndexToFieldPostion i = specColumnName i ++ "1"
    ∧ ∀ j, j < 26 → j ≠ i → convertIndexToFieldPostion j ≠ convertIndexToFieldPostion i := by
  refine ⟨?_, convertIndexToFieldPostion_lt_26 i h26,
    convertIndexToFieldPostion_distinct_lt_26 i h26⟩
  rw [setField, setFieldLoop_getElem?, List.getElem?_eq_getElem hi, Nat.zero_add,
    convertIndexToFieldPostion_lt_26 i h26]
  rfl

/-- C9 witness: the third of four fields is written to the cell "C1". -/
theorem setField_first_26_columns_witness :
    (setField ["Word", "Definition", "Level", "ExampleUsage"])[2]? = some ("C1", "Level")
    ∧ convertIndexToFieldPostion 2 = "C1"
    ∧ ∀ j, j < 26 → j ≠ 2 → convertIndexToFieldPostion j ≠ convertIndexToFieldPostion 2 :=
  setField_first_26_columns ["Word", "Definition", "Level", "ExampleUsage"] 2
    (by decide) (by decide)

/-- C9 fails from the 27th field on: index 26 is written to the position
"[1", not to "AA1", and index 256 is written to the position of index 0. -/
theorem convertIndexToFieldPostion_not_column_name :
    convertIndexToFieldPostion 26 = "[1"
    ∧ specColumnName 26 ++ "1" = "AA1"
    ∧ convertIndexToFieldPostion 26 ≠ specColumnName 26 ++ "1"
    ∧ (setField (List.replicate 27 "x"))[26]? = some ("[1", "x")
    ∧ convertIndexToFieldPostion 256 = convertIndexToFieldPostion 0 := by
  decide

/-! ## Rendering of responses -/

/-- C6, as the code has it: a success response renders exactly as
"Result of crawl, vocab: Word: <word>, Definition: <def>, ExampleUsage: <example>"
with the fields of its vocab substituted, and a failure response renders as
a text that ends in " when crawl, error: <message>" with the message of its
error substituted, whatever its vocab. -/
theorem CrawlVocabResponse_String_spec (v : Vocab) (vocab : Option Vocab) (e : GoError) :
    (CrawlVocabResponse.mk (some v) none).String =
      "Result of crawl, vocab: " ++
        ("Word: " ++ v.Word ++ ", Definition: " ++ v.Definition
          ++ ", ExampleUsage: " ++ v.ExampleUsage)
    ∧ (" when crawl, error: " ++ e.message).data <:+ (CrawlVocabResponse.mk vocab (some e)).String.data := by
  refine ⟨rfl, ?_⟩
  refine ⟨"Faild".data, ?_⟩
  simp [CrawlVocabResponse.String, String.data_append]

/-- C6 fails on both paths: a success does not render as
"Word: run, Definition: to run fast, ExampleUsage: I run" and a failure does
not render as "Failed when crawl, error: failed to find word". -/
theorem CrawlVocabResponse_String_not_as_specified :
    (CrawlVocabResponse.mk (some ⟨"run", "to run fast", B2, "I run"⟩) none).String
      = "Result of crawl, vocab: Word: run, Definition: to run fast, ExampleUsage: I run"
    ∧ (CrawlVocabResponse.mk (some ⟨"run", "to run fast", B2, "I run"⟩) none).String
      ≠ "Word: run, Definition: to run fast, ExampleUsage: I run"
    ∧ (CrawlVocabResponse.mk none (some ErrWordNotFound)).String
      = "Faild when crawl, error: failed to find word"
    ∧ (CrawlVocabResponse.mk none (some ErrWordNotFound)).String
      ≠ "Failed when crawl, error: failed to find word" := by
  decide

/-! ## Detail pages: the definition callback -/

theorem lastIsColon_eq_none_iff (text : String) : lastIsColon text = none ↔ text = "" := by
  obtain ⟨cs⟩ := text
  unfold lastIsColon
  cases h : cs.getLast? with
  | none =>
    have hcs : cs = [] := List.getLast?_eq_none_iff.mp h
    subst hcs
    simp
  | some c =>
    have hcs : cs ≠ [] := by
      intro hnil
      subst hnil
      simp at h
    constructor
    · intro hsome
      simp at hsome
    · intro heq
      exact absurd (congrArg String.data heq) hcs

/-- What the definition callback does, case by case: nothing once a first
definition was seen; a panic on a first definition whose trimmed text is
empty; otherwise it sets the flag and stores the trimmed text without one
trailing colon. -/
theorem definitionCallback_eq (st : CrawlState) (eText : String) :
    definitionCallback st eText =
      if st.firstDefinitionFound then some st
      else if TrimSpace eText = "" then none
      else some { st with
        firstDefinitionFound := true,
        vocab := { st.vocab with Definition := specStripColon (TrimSpace eText) } } := by
  unfold definitionCallback
  cases hf : st.firstDefinitionFound with
  | true => simp
  | false =>
    simp only [Bool.not_false, ↓reduceIte, Bool.false_eq_true]
    cases hl : lastIsColon (TrimSpace eText) with
    | none =>
      have h := (lastIsColon_eq_none_iff _).mp hl
      simp [h]
    | some b =>
      have hne : TrimSpace eText ≠ "" := by
        intro h
        have := (lastIsColon_eq_none_iff _).mpr h
        simp [this] at hl
      simp only [hne, ↓reduceIte]
      unfold lastIsColon at hl
      cases hg : (TrimSpace eText).data.getLast? with
      | none => simp [hg] at hl
      | some c =>
        simp only [hg, Option.some.injEq] at hl
        cases b with
        | true =>
          have hc : c = ':' := by simpa using hl
          simp [specStripColon, dropLastByte, hg, hc]
        | false =>
          have hc : c ≠ ':' := by simpa using hl
          simp [specStripColon, hg, hc]

/-! ## Detail pages: the visit -/

theorem Visit_cons (st : CrawlState) (m : Match) (rest : List Match) :
    Visit st (m :: rest) = (runCallback st m).bind (fun st1 => Visit st1 rest) := by
  simp only [Visit]
  cases runCallback st m <;> rfl

/-- The visit panics exactly when no definition was seen before and the
first definition match of the page has a text that is empty after trimming. -/
theorem Visit_eq_none_iff (page : List Match) (st : CrawlState) :
    Visit st page = none ↔
      st.firstDefinitionFound = false
        ∧ ∃ t, firstDefinitionText page = some t ∧ TrimSpace t = "" := by
  induction page generalizing st with
  | nil => simp [Visit, firstDefinitionText]
  | cons m rest ih =>
    rw [Visit_cons]
    cases m with
    | word text =>
      simp [runCallback, ih, wordCallback, firstDefinitionText]
    | level index text =>
      by_cases hidx : index = 0 <;>
        simp [runCallback, ih, levelCallback, firstDefinitionText, hidx]
    | exampleUsage text =>
      simp [runCallback, ih, exampleCallback, firstDefinitionText]
    | definition text =>
      simp only [runCallback, definitionCallback_eq, firstDefinitionText]
      cases hf : st.firstDefinitionFound with
      | true => simp [ih, hf]
      | false =>
        by_cases ht : TrimSpace text = ""
        · simp [ht]
        · simp [ht, ih]

/-- What a visit that does not panic leaves in the state: the word flag and
the word follow the last word match, the definition flag and the definition
follow the first definition match. -/
theorem Visit_some_spec (page : List Match) (st st1 : CrawlState)
    (h : Visit st page = some st1) :
    st1.hasFoundWord = (st.hasFoundWord || (lastWordText page).isSome)
    ∧ st1.vocab.Word = (lastWordText page).getD st.vocab.Word
    ∧ st1.firstDefinitionFound
        = (st.firstDefinitionFound || (firstDefinitionText page).isSome)
    ∧ st1.vocab.Definition =
        (if st.firstDefinitionFound then st.vocab.Definition
         else match firstDefinitionText page with
           | some t => specStripColon (TrimSpace t)
           | none => st.vocab.Definition) := by
  induction page generalizing st with
  | nil =>
    simp only [Visit, Option.some.injEq] at h
    subst h
    simp [lastWordText, firstDefinitionText]
  | cons m rest ih =>
    rw [Visit_cons] at h
    cases m with
    | word text =>
      simp only [runCallback, Option.some_bind] at h
      obtain ⟨h1, h2, h3, h4⟩ := ih _ h
      simp only [wordCallback] at h1 h2 h3 h4
      refine ⟨?_, ?_, ?_, ?_⟩
      · rw [h1]; cases hl : lastWordText rest <;> simp [lastWordText, hl]
      · rw [h2]; cases hl : lastWordText rest <;> simp [lastWordText, hl]
      · rw [h3]; simp [firstDefinitionText]
      · rw [h4]; simp [firstDefinitionText]
    | level index text =>
      simp only [runCallback, Option.some_bind] at h
      obtain ⟨h1, h2, h3, h4⟩ := ih _ h
      by_cases hidx : index = 0 <;>
        simp only [levelCallback, hidx, beq_self_eq_true, ↓reduceIte, beq_iff_eq] at h1 h2 h3 h4 <;>
        exact ⟨by rw [h1]; simp [lastWordText], by rw [h2]; simp [lastWordText],
          by rw [h3]; simp [firstDefinitionText], by rw [h4]; simp [firstDefinitionText]⟩
    | exampleUsage text =>
      simp only [runCallback, Option.some_bind] at h
      obtain ⟨h1, h2, h3, h4⟩ := ih _ h
      simp only [exampleCallback] at h1 h2 h3 h4
      exact ⟨by rw [h1]; simp [lastWordText], by rw [h2]; simp [lastWordText],
        by rw [h3]; simp [firstDefinitionText], by rw [h4]; simp [firstDefinitionText]⟩
    | definition text =>
      simp only [runCallback, definitionCallback_eq] at h
      cases hf : st.firstDefinitionFound with
      | true =>
        simp only [hf, ↓reduceIte, Option.some_bind] at h
        obtain ⟨h1, h2, h3, h4⟩ := ih _ h
        simp only [hf, ↓reduceIte] at h3 h4
        exact ⟨by rw [h1]; simp [lastWordText], by rw [h2]; simp [lastWordText],
          by rw [h3]; simp, by rw [h4]; simp⟩
      | false =>
        by_cases ht : TrimSpace text = ""
        · simp [hf, ht] at h
        · simp only [hf, ht, ↓reduceIte, Option.some_bind, Bool.false_eq_true] at h
          obtain ⟨h1, h2, h3, h4⟩ := ih _ h
          simp only [↓reduceIte] at h1 h2 h3 h4
          exact ⟨by rw [h1]; simp [lastWordText, hf], by rw [h2]; simp [lastWordText],
            by rw [h3]; simp [firstDefinitionText],
            by rw [h4]; simp [firstDefinitionText]⟩

/-! ## Detail pages: the response -/

theorem specStripColon_eq_empty_iff (text : String) :
    specStripColon text = "" ↔ text = "" ∨ text = ":" := by
  obtain ⟨cs⟩ := text
  unfold specStripColon
  by_cases hl : cs.getLast? = some ':'
  · simp only [hl, ↓reduceIte]
    have hsplit : cs = cs.dropLast ++ [':'] :=
      (List.dropLast_append_getLast? ':' (by simpa using hl)).symm
    constructor
    · intro h
      have hd : cs.dropLast = [] := congrArg String.data h
      rw [hd] at hsplit
      right
      rw [hsplit]
      rfl
    · intro h
      rcases h with h | h
      · have hd : cs = [] := congrArg String.data h
        rw [hd] at hl
        simp at hl
      · have hd : cs = [':'] := congrArg String.data h
        rw [hd]
        rfl
  · simp only [hl, ↓reduceIte]
    constructor
    · intro h
      exact Or.inl h
    · intro h
      rcases h with h | h
      · exact h
      · have hd : cs = [':'] := congrArg String.data h
        rw [hd] at hl
        simp at hl

/-- The response `CrawlVocab` sends after a visit that ended in state `st`. -/
theorem CrawlVocab_of_visit (page : List Match) (visitErr : Option GoError) (st : CrawlState)
    (h : Visit initCrawlState page = some st) :
    ∃ run, CrawlVocab page visitErr = some run
      ∧ run.sent =
        [if st.hasFoundWord = false then { vocab := none, err := some ErrWordNotFound }
         else if st.firstDefinitionFound = false then
           { vocab := none, err := some ErrDefinitionNotFound }
         else { vocab := some st.vocab, err := none }] := by
  unfold CrawlVocab
  rw [h]
  cases hw : st.hasFoundWord <;> cases hd : st.firstDefinitionFound <;> simp [hw, hd]

/-- On a page whose first definition match, if there is one, has a text that
is not empty after trimming, `CrawlVocab` sends exactly one response, with
or without a transport error: the word failure if no word matched, else the
definition failure if no definition matched, else a success. -/
theorem CrawlVocab_sends_one (page : List Match) (visitErr : Option GoError)
    (hdef : ∀ t, firstDefinitionText page = some t → TrimSpace t ≠ "") :
    ∃ run resp, CrawlVocab page visitErr = some run ∧ run.sent = [resp]
      ∧ (lastWordText page = none → resp = { vocab := none, err := some ErrWordNotFound })
      ∧ (lastWordText page ≠ none → firstDefinitionText page = none →
          resp = { vocab := none, err := some ErrDefinitionNotFound })
      ∧ (lastWordText page ≠ none → firstDefinitionText page ≠ none →
          ∃ v, resp = { vocab := some v, err := none }) := by
  cases hv : Visit initCrawlState page with
  | none =>
    obtain ⟨_, t, ht, hblank⟩ := (Visit_eq_none_iff page initCrawlState).mp hv
    exact absurd hblank (hdef t ht)
  | some st =>
    obtain ⟨run, hrun, hsent⟩ := CrawlVocab_of_visit page visitErr st hv
    obtain ⟨h1, _, h3, _⟩ := Visit_some_spec page initCrawlState st hv
    simp only [initCrawlState, Bool.false_or] at h1 h3
    refine ⟨run, _, hrun, hsent, ?_, ?_, ?_⟩
    · intro hw
      simp [h1, hw]
    · intro hw hd
      cases hlw : lastWordText page with
      | none => exact absurd hlw hw
      | some w => simp [h1, h3, hlw, hd]
    · intro hw hd
      cases hlw : lastWordText page with
      | none => exact absurd hlw hw
      | some w =>
        cases hfd : firstDefinitionText page with
        | none => exact absurd hfd hd
        | some t => exact ⟨st.vocab, by simp [h1, h3, hlw, hfd]⟩

/-- C7, as the code has it: every success response sent by `CrawlVocab` (nil
error, non-nil vocab) is sent for a page on which a word element and a
definition element matched; its Word is the text of the last word match and
its Definition is the text of the first definition match, trimmed and with
one trailing colon removed.  So the Word is non-empty exactly when that word
text is non-empty, and the Definition is non-empty exactly when the trimmed
definition text is neither empty nor a lone colon. -/
theorem CrawlVocab_success_vocab (page : List Match) (visitErr : Option GoError)
    (run : CrawlVocabRun) (resp : CrawlVocabResponse) (v : Vocab)
    (hrun : CrawlVocab page visitErr = some run) (hsent : resp ∈ run.sent)
    (herr : resp.err = none) (hvocab : resp.vocab = some v) :
    ∃ w t, lastWordText page = some w ∧ firstDefinitionText page = some t
      ∧ v.Word = w
      ∧ v.Definition = specStripColon (TrimSpace t)
      ∧ (v.Word ≠ "" ↔ w ≠ "")
      ∧ (v.Definition ≠ "" ↔ TrimSpace t ≠ "" ∧ TrimSpace t ≠ ":") := by
  cases hv : Visit initCrawlState page with
  | none => simp [CrawlVocab, hv] at hrun
  | some st =>
    obtain ⟨run1, hrun1, hsent1⟩ := CrawlVocab_of_visit page visitErr st hv
    rw [hrun] at hrun1
    obtain rfl : run = run1 := Option.some.inj hrun1
    rw [hsent1, List.mem_singleton] at hsent
    obtain ⟨h1, h2, h3, h4⟩ := Visit_some_spec page initCrawlState st hv
    simp only [initCrawlState, Bool.false_or, Bool.false_eq_true, ↓reduceIte] at h1 h2 h3 h4
    cases hw : st.hasFoundWord with
    | false => simp [hsent, hw] at herr
    | true =>
      cases hd : st.firstDefinitionFound with
      | false => simp [hsent, hw, hd] at herr
      | true =>
        simp only [hsent, hw, hd, Bool.true_eq_false, ↓reduceIte, Option.some.injEq] at hvocab
        subst hvocab
        rw [hw] at h1
        rw [hd] at h3
        cases hlw : lastWordText page with
        | none => simp [hlw] at h1
        | some w =>
          cases hfd : firstDefinitionText page with
          | none => simp [hfd] at h3
          | some t =>
            simp only [hlw, Option.getD_some] at h2
            simp only [hfd] at h4
            refine ⟨w, t, rfl, rfl, h2, h4, by rw [h2], ?_⟩
            rw [h4, Ne, specStripColon_eq_empty_iff, not_or]

/-- C7 witness: a page with the word "run" and the definition text
"  to run fast: ". -/
theorem CrawlVocab_success_vocab_witness :
    CrawlVocab [Match.word "run", Match.definition "  to run fast: "] none
      = some ⟨[], [⟨some ⟨"run", "to run fast", B2, ""⟩, none⟩]⟩
    ∧ ∃ w t,
      lastWordText [Match.word "run", Match.definition "  to run fast: "] = some w
      ∧ firstDefinitionText [Match.word "run", Match.definition "  to run fast: "] = some t
      ∧ (Vocab.mk "run" "to run fast" B2 "").Word = w
      ∧ (Vocab.mk "run" "to run fast" B2 "").Definition = specStripColon (TrimSpace t)
      ∧ ((Vocab.mk "run" "to run fast" B2 "").Word ≠ "" ↔ w ≠ "")
      ∧ ((Vocab.mk "run" "to run fast" B2 "").Definition ≠ ""
          ↔ TrimSpace t ≠ "" ∧ TrimSpace t ≠ ":") :=
  ⟨by decide,
    CrawlVocab_success_vocab [Match.word "run", Match.definition "  to run fast: "] none
      ⟨[], [⟨some ⟨"run", "to run fast", B2, ""⟩, none⟩]⟩
      ⟨some ⟨"run", "to run fast", B2, ""⟩, none⟩ ⟨"run", "to run fast", B2, ""⟩
      (by decide) (by decide) rfl rfl⟩

/-- C7 fails: a word element with empty text gives a success response whose
Word is empty, and a definition element whose text is a lone colon gives a
success response whose Definition is empty. -/
theorem CrawlVocab_success_with_empty_fields :
    CrawlVocab [Match.word "", Match.definition "to run fast:"] none
      = some ⟨[], [⟨some ⟨"", "to run fast", B2, ""⟩, none⟩]⟩
    ∧ CrawlVocab [Match.word "run", Match.definition " : "] none
      = some ⟨[], [⟨some ⟨"run", "", B2, ""⟩, none⟩]⟩ := by
  decide

/-! ## Detail pages: a definition element without text -/

theorem trimSpaceChars_eq_nil_iff (cs : List Char) :
    trimSpaceChars cs = [] ↔ ∀ c ∈ cs, isSpace c = true := by
  unfold trimSpaceChars
  rw [List.reverse_eq_nil_iff, List.dropWhile_eq_nil_iff]
  constructor
  · intro h
    have hnil : cs.dropWhile isSpace = [] := by
      cases hd : cs.dropWhile isSpace with
      | nil => rfl
      | cons a rest =>
        have hne : cs.dropWhile isSpace ≠ [] := by simp [hd]
        have hhead := List.head_dropWhile_not isSpace cs hne
        have ha : isSpace a = true := h a (by simp [hd])
        simp [hd] at hhead
        rw [ha] at hhead
        exact absurd hhead (by decide)
    exact List.dropWhile_eq_nil_iff.mp hnil
  · intro h
    have hnil : cs.dropWhile isSpace = [] := List.dropWhile_eq_nil_iff.mpr h
    simp [hnil]

/-- The definition callback panics exactly on a first definition match whose
text is empty or made of white space only. -/
theorem definitionCallback_eq_none_iff (st : CrawlState) (eText : String) :
    definitionCallback st eText = none ↔
      st.firstDefinitionFound = false ∧ ∀ c ∈ eText.data, isSpace c = true := by
  rw [definitionCallback_eq, ← trimSpaceChars_eq_nil_iff]
  have hiff : TrimSpace eText = "" ↔ trimSpaceChars eText.data = [] := by
    constructor
    · intro h
      exact congrArg String.data h
    · intro h
      unfold TrimSpace
      rw [h]
  cases hf : st.firstDefinitionFound with
  | true => simp
  | false =>
    by_cases ht : TrimSpace eText = ""
    · simp [ht, hiff.mp ht]
    · have hne : trimSpaceChars eText.data ≠ [] := fun h => ht (hiff.mpr h)
      simp [ht, hne]

/-- On a page whose first definition match has a text `t` that is not empty
after trimming, the visit ends with Definition equal to `t` trimmed and with
one trailing colon removed, whatever matches follow. -/
theorem Visit_definition_of_first_match (page : List Match) (t : String)
    (hfirst : firstDefinitionText page = some t) (hne : TrimSpace t ≠ "") :
    ∃ st, Visit initCrawlState page = some st
      ∧ st.vocab.Definition = specStripColon (TrimSpace t) := by
  cases hv : Visit initCrawlState page with
  | none =>
    obtain ⟨_, u, hu, hblank⟩ := (Visit_eq_none_iff page initCrawlState).mp hv
    rw [hfirst] at hu
    obtain rfl : t = u := Option.some.inj hu
    exact absurd hblank hne
  | some st =>
    obtain ⟨_, _, _, h4⟩ := Visit_some_spec page initCrawlState st hv
    refine ⟨st, rfl, ?_⟩
    rw [h4]
    simp [initCrawlState, hfirst]

/-- C10 fails: on a first definition match whose text is empty, or made of
white space only, the definition callback panics (index out of range) and
does not complete. -/
theorem definitionCallback_panics_on_blank_text :
    definitionCallback initCrawlState "" = none
    ∧ definitionCallback initCrawlState "   " = none
    ∧ TrimSpace "   " = ""
    ∧ lastIsColon (TrimSpace "   ") = none := by
  decide

/-- C3 fails on a blank first definition: for the text " \n " the claimed
Definition is the empty text, but the visit of a page with that definition
element panics and no vocab results; the text "  to run fast: " does give
"to run fast". -/
theorem Visit_blank_definition_panics :
    firstDefinitionText [Match.word "run", Match.definition " \n "] = some " \n "
    ∧ specStripColon (TrimSpace " \n ") = ""
    ∧ Visit initCrawlState [Match.word "run", Match.definition " \n "] = none
    ∧ (Visit initCrawlState [Match.word "run", Match.definition "  to run fast: "]).map
        (fun st => st.vocab.Definition) = some "to run fast" := by
  decide

/-- C1 fails on a blank first definition: a page that matched a definition
element without text and no word element sends nothing, where the word
failure is claimed, and a page that matched a word element and a definition
element without text sends nothing, where a success is claimed. -/
theorem CrawlVocab_blank_definition_sends_nothing :
    CrawlVocab [Match.definition ""] none = none
    ∧ CrawlVocab [Match.word "run", Match.definition ""] none = none
    ∧ CrawlVocab [Match.word "run", Match.definition ""] (some ⟨"transport"⟩) = none
    ∧ CrawlVocab [Match.definition "to run fast:"] none
        = some ⟨[], [⟨none, some ErrWordNotFound⟩]⟩ := by
  decide

end VocabCrawler
